import Mathlib

/-!
# Verification of the skill-assignment scoring engine

A shallow embedding of the scoring and resolution core of
`tools/skills/assign_skills.py`: the signal scorer (`score_skill`),
the composite matcher (`detect_composite_skills`), the assignment
resolver (the in-memory assignment construction inside
`assign_skills_to_goal`), and the aggregate summary of
`generate_skills_map`.

Python strings are modelled as Lean `String` values, with the string
operations used by the code (`str.lower`, substring membership via
`in`, `str.startswith`, slicing) implemented over the character list,
matching the Python per-character semantics for the ASCII texts involved.
Python integers are `Nat` here: the score starts at 0 and only ever
grows by additions of nonnegative amounts.  Python dictionaries
(the registry, the score map, the usage-count map) are association
lists in insertion order, which is exactly the CPython documented
iteration order; key uniqueness, where a theorem needs it, is an
explicit `Nodup` hypothesis mirroring the dict-key invariant.

A compiled regular expression is modelled as a pair of its source text
(used in reason strings) and its `re.search` behaviour as a Boolean
predicate on the subject string; the concrete regexes appearing in the
spec examples are embedded individually with their search semantics
spelled out.
-/

/-- Characters of `needle` occur contiguously inside `hay` (helper for `pyIn`). -/
def listContainsSub : List Char → List Char → Bool
  | hay, needle =>
    match hay with
    | [] => needle.isEmpty
    | c :: t => needle.isPrefixOf (c :: t) || listContainsSub t needle

/-- The Python substring test `needle in hay` on strings. -/
def pyIn (needle hay : String) : Bool := listContainsSub hay.data needle.data

/-- The Python `str.lower()`, character by character (ASCII case folding). -/
def pyLower (s : String) : String := ⟨s.data.map Char.toLower⟩

/-- The Python `s.startswith(pre)`. -/
def pyStartsWith (s pre : String) : Bool := pre.data.isPrefixOf s.data

/-- The Python character-based slice `s[n:]`. -/
def pyDrop (s : String) (n : Nat) : String := ⟨s.data.drop n⟩

/-- A JSON-like value: the shape of a parsed SDP section payload
(`json.load` output).  Numbers are modelled as integers; the claims do
not depend on float formatting. -/
inductive Json where
  | null : Json
  | bool : Bool → Json
  | num : Int → Json
  | str : String → Json
  | arr : List Json → Json
  | obj : List (String × Json) → Json

/-- Python truthiness of a JSON value (`if sdp_section:`):
`None`, `False`, `0`, `""`, `[]` and `{}` are falsy. -/
def truthy : Json → Bool
  | .null => false
  | .bool b => b
  | .num n => n != 0
  | .str s => s != ""
  | .arr xs => !xs.isEmpty
  | .obj fs => !fs.isEmpty

mutual
/-- Serialization as in `json.dumps` with its default separators (`", "` between items,
`": "` after keys).  String contents are emitted verbatim: the payloads
and file-type tokens involved contain no characters that JSON would
escape, and the serialized text is only ever used as a search subject. -/
def dumps : Json → String
  | .null => "null"
  | .bool true => "true"
  | .bool false => "false"
  | .num n => toString n
  | .str s => "\"" ++ s ++ "\""
  | .arr xs => "[" ++ dumpsArr xs ++ "]"
  | .obj fs => "\x7b" ++ dumpsObj fs ++ "\x7d"

/-- Comma-joined serialization of the elements of a JSON array. -/
def dumpsArr : List Json → String
  | [] => ""
  | [j] => dumps j
  | j :: rest => dumps j ++ ", " ++ dumpsArr rest

/-- Comma-joined serialization of the key/value pairs of a JSON object. -/
def dumpsObj : List (String × Json) → String
  | [] => ""
  | [kv] => "\"" ++ kv.1 ++ "\": " ++ dumps kv.2
  | kv :: rest => "\"" ++ kv.1 ++ "\": " ++ dumps kv.2 ++ ", " ++ dumpsObj rest
end

/-- A compiled goal/composite trigger regex: its source text paired
with its `re.search` behaviour (does the pattern match anywhere in the
subject?). -/
def GoalPattern := String × (String → Bool)

/-- The `triggers` sub-dictionary of a registry skill entry.  Every
category is optional: `triggers.get("keywords", [])` and friends
default a missing key to the empty list. -/
structure Triggers where
  keywords : Option (List String)
  goal_patterns : Option (List GoalPattern)
  file_types : Option (List String)
  section_types : Option (List String)

/-- The default for a missing `triggers` key (`skill_def.get("triggers", {})`). -/
def Triggers.empty : Triggers := ⟨none, none, none, none⟩

/-- One registry skill entry: an optional `triggers` dictionary and an
optional reference `path`. -/
structure SkillDef where
  triggers : Option Triggers
  path : Option String

/-- One registry composite entry: optional trigger pattern list
(`comp_def.get("triggers", [])`), a required member-skill list
(`comp_def["skills"]`), and an optional description
(`comp_def.get("description", "")`). -/
structure CompositeDef where
  triggers : Option (List GoalPattern)
  skills : List String
  description : Option String

/-- The loaded skills registry: the `skills` and `composites`
dictionaries, as association lists in insertion order. -/
structure Registry where
  skills : List (String × SkillDef)
  composites : List (String × CompositeDef)

/-- Return value of `score_skill`: `{"score": ..., "reasons": [...]}`. -/
structure ScoreResult where
  score : Nat
  reasons : List String
  deriving DecidableEq

/-- The scorer `score_skill` (assign_skills.py lines 59-112): score how relevant a
skill is to a goal.  Five additive signals; each contributing signal
appends one reason entry, in signal order.
-/
def score_skill (skill_name : String) (skill_def : SkillDef) (goal_text : String)
    (goal_name : String) (sdp_section : Option Json) : ScoreResult :=
  let triggers := skill_def.triggers.getD Triggers.empty
  -- 1. Keyword matching (1 point per hit)
  let keywords := triggers.keywords.getD []
  let goal_lower := pyLower goal_text
  let keyword_hits := keywords.filter (fun kw => pyIn (pyLower kw) goal_lower)
  let score1 := keyword_hits.length
  let reasons1 : List String :=
    if keyword_hits.isEmpty then []
    else ["keywords: " ++ ", ".intercalate (keyword_hits.take 5)]
  -- 2. Goal pattern matching (3 points; one pattern match is enough)
  let patterns := triggers.goal_patterns.getD []
  let pat_hit := patterns.find? (fun p => p.2 (pyLower goal_name))
  let score2 := match pat_hit with | some _ => 3 | none => 0
  let reasons2 : List String :=
    match pat_hit with | some p => ["goal pattern: " ++ p.1] | none => []
  -- 3. File type matching from SDP section (2 points; first match only)
  let file_types := triggers.file_types.getD []
  let s3 : Nat × List String :=
    match sdp_section with
    | some j =>
      if truthy j then
        let section_str := pyLower (dumps j)
        match file_types.find? (fun ft => pyIn (pyLower ft) section_str) with
        | some ft => (2, ["file type: " ++ ft])
        | none => (0, [])
      else (0, [])
    | none => (0, [])
  -- 4. Section type wildcard
  let section_types := triggers.section_types.getD []
  let wild := section_types.contains "*" && pyStartsWith goal_name "build-"
  let score4 := if wild then 2 else 0
  let reasons4 : List String := if wild then ["applies to all build-* goals"] else []
  -- 5. SDP section content analysis
  let s5 : Nat × List String :=
    match sdp_section with
    | some j =>
      if truthy j then
        let section_text := pyLower (dumps j)
        let section_keyword_hits :=
          (keywords.filter (fun kw => pyIn (pyLower kw) section_text)).length
        if 2 < section_keyword_hits then
          (section_keyword_hits,
           [toString section_keyword_hits ++ " keyword hits in SDP section"])
        else (0, [])
      else (0, [])
    | none => (0, [])
  { score := score1 + score2 + s3.1 + score4 + s5.1,
    reasons := reasons1 ++ reasons2 ++ s3.2 ++ reasons4 ++ s5.2 }

/-- One entry of the composite-match list returned by
`detect_composite_skills`. -/
structure CompositeMatch where
  name : String
  skills : List String
  description : String
  deriving DecidableEq

/-- The matcher `detect_composite_skills` (lines 115-128): a composite applies when any
of its trigger patterns matches the case-folded goal name or goal text;
the first matching pattern settles the composite (same result as `any`).
-/
def detect_composite_skills (goal_name goal_text : String)
    (composites : List (String × CompositeDef)) : List CompositeMatch :=
  composites.filterMap fun p =>
    if (p.2.triggers.getD []).any
        (fun pat => pat.2 (pyLower goal_name) || pat.2 (pyLower goal_text)) then
      some { name := p.1, skills := p.2.skills, description := p.2.description.getD "" }
    else none

/-- One entry of the final assignment list of a goal. -/
structure AssignedSkill where
  name : String
  path : Option String
  score : Nat
  reasons : List String
  has_skill_file : Bool
  deriving DecidableEq

/-- Registry path lookup: `skills_config.get(name, {}).get("path")`
(and, for names known to be present, `skills_config[name].get("path")`). -/
def skillPath (skills : List (String × SkillDef)) (n : String) : Option String :=
  match skills.find? (fun p => p.1 == n) with
  | some p => p.2.path
  | none => none

/-- Build one assignment entry; `has_skill_file` is
`skill_path is not None`. -/
def mkAssigned (skills : List (String × SkillDef)) (n : String) (score : Nat)
    (reasons : List String) : AssignedSkill :=
  let p := skillPath skills n
  { name := n, path := p, score := score, reasons := reasons, has_skill_file := p.isSome }

/-- The comparison underlying
`sorted(scores.items(), key=lambda x: x[1]["score"], reverse=True)`:
`a` may come no later than `b` when the score of `a` is at least the
score of `b`. -/
def scoreGE (a b : String × ScoreResult) : Prop := b.2.score ≤ a.2.score

instance : DecidableRel scoreGE := fun a b => Nat.decLe b.2.score a.2.score

instance : IsTotal (String × ScoreResult) scoreGE :=
  ⟨fun a b => Nat.le_total b.2.score a.2.score⟩

instance : IsTrans (String × ScoreResult) scoreGE :=
  ⟨fun _ _ _ h1 h2 => Nat.le_trans h2 h1⟩

/-- The `scores` dictionary of `assign_skills_to_goal` (lines 156-161):
each registry skill is scored and kept when its score is positive, in
registry iteration order.
-/
def positive_scores (registry : Registry) (goal_text goal_name : String)
    (sdp_section : Option Json) : List (String × ScoreResult) :=
  registry.skills.filterMap fun p =>
    let result := score_skill p.1 p.2 goal_text goal_name sdp_section
    if 0 < result.score then some (p.1, result) else none

/-- The sort `sorted(scores.items(), key=lambda x: x[1]["score"], reverse=True)`
(line 172).  The Python `sorted` builtin is a stable sort; with the non-strict
descending comparison `scoreGE` it keeps tied entries in their original
(registry) order, which insertion sort with the same comparison
reproduces exactly (any two stable sorts under one total preorder agree).
-/
def sorted_scores (registry : Registry) (goal_text goal_name : String)
    (sdp_section : Option Json) : List (String × ScoreResult) :=
  (positive_scores registry goal_text goal_name sdp_section).insertionSort scoreGE

/-- The threshold pass of lines 172-182: walk the sorted score list and
keep the entries with score at least 2, resolving each path from the
registry.
-/
def primary_skills (registry : Registry) (goal_text goal_name : String)
    (sdp_section : Option Json) : List AssignedSkill :=
  (sorted_scores registry goal_text goal_name sdp_section).filterMap fun p =>
    if 2 ≤ p.2.score then some (mkAssigned registry.skills p.1 p.2.score p.2.reasons)
    else none

/-- One step of composite expansion (lines 186-195): a member skill is
appended with score 1 and a single composite reason unless its name is
already present in the accumulated assignment.
-/
def add_member (skills : List (String × SkillDef)) (comp_name : String)
    (acc : List AssignedSkill) (comp_skill : String) : List AssignedSkill :=
  if (acc.map (fun s => s.name)).contains comp_skill then acc
  else acc ++ [mkAssigned skills comp_skill 1 ["composite: " ++ comp_name]]

/-- Composite expansion for one matched composite (lines 185-195). -/
def add_composite (skills : List (String × SkillDef)) (acc : List AssignedSkill)
    (comp : CompositeMatch) : List AssignedSkill :=
  comp.skills.foldl (add_member skills comp.name) acc

/-- The in-memory assignment construction of `assign_skills_to_goal`
(lines 155-195): threshold-qualified skills in stable descending-score
order, then composite expansion over the matched composites in order.
The surrounding file I/O (frontmatter parsing, SDP file loading,
writing results back) supplies `goal_name`, `goal_text` and
`sdp_section` and is outside this core.
-/
def assign_skills_to_goal (registry : Registry) (goal_name goal_text : String)
    (sdp_section : Option Json) : List AssignedSkill :=
  (detect_composite_skills goal_name goal_text registry.composites).foldl
    (add_composite registry.skills)
    (primary_skills registry goal_text goal_name sdp_section)

/-- Construction of the goal text, `goal_text = f"{goal_name} {title} {body}"` (line 140). -/
def goal_text_of (goal_name title body : String) : String :=
  goal_name ++ " " ++ title ++ " " ++ body

/-- The names occurring in an assignment, in order. -/
def assignedNames (l : List AssignedSkill) : List String := l.map (fun s => s.name)

/-- A per-goal assignment as fed to `generate_skills_map`: the goal
name together with its `assigned_skills` list. -/
structure Assignment where
  goal : String
  assigned_skills : List AssignedSkill
  deriving DecidableEq

/-- One usage-count update:
`skill_counts[name] = skill_counts.get(name, 0) + 1` on a dict held as
an insertion-ordered association list. -/
def bump_count (acc : List (String × Nat)) (n : String) : List (String × Nat) :=
  if acc.any (fun p => p.1 == n) then
    acc.map (fun p => if p.1 == n then (p.1, p.2 + 1) else p)
  else acc ++ [(n, 1)]

/-- The `skill_counts` dictionary of `generate_skills_map`
(lines 268-272). -/
def skill_counts (assignments : List Assignment) : List (String × Nat) :=
  assignments.foldl
    (fun acc a => a.assigned_skills.foldl (fun acc2 s => bump_count acc2 s.name) acc) []

/-- The comparison underlying
`sorted(skill_counts.items(), key=lambda x: x[1], reverse=True)`. -/
def countGE (a b : String × Nat) : Prop := b.2 ≤ a.2

instance : DecidableRel countGE := fun a b => Nat.decLe b.2 a.2

instance : IsTotal (String × Nat) countGE := ⟨fun a b => Nat.le_total b.2 a.2⟩

instance : IsTrans (String × Nat) countGE := ⟨fun _ _ _ h1 h2 => Nat.le_trans h2 h1⟩

/-- The summary table rows of `generate_skills_map` (line 276): usage
counts in stable descending order. -/
def summary_rows (assignments : List Assignment) : List (String × Nat) :=
  (skill_counts assignments).insertionSort countGE

/-- Python truthiness of a stored path value (`if s["path"]` /
`any(s["path"] for ...)`): `None` and the empty string are falsy. -/
def path_truthy : Option String → Bool
  | none => false
  | some s => s != ""

/-- The has-reference flag of a summary row (lines 277-279):
`any(s["path"] for a in assignments for s in a["assigned_skills"]
if s["name"] == skill_name)`. -/
def has_skill_file_flag (assignments : List Assignment) (skill_name : String) : Bool :=
  assignments.any fun a =>
    a.assigned_skills.any fun s => s.name == skill_name && path_truthy s.path

/-- Dictionary read `counts.get(n, 0)` on the association-list model. -/
def count_of (counts : List (String × Nat)) (n : String) : Nat :=
  match counts.find? (fun p => p.1 == n) with
  | some p => p.2
  | none => 0

/-- The direct score of a skill name under the Signal Scorer: the score
of the registry entry of that name, 0 for a name the registry does not
know. -/
def direct_score (registry : Registry) (goal_text goal_name : String)
    (sdp_section : Option Json) (n : String) : Nat :=
  match registry.skills.find? (fun p => p.1 == n) with
  | some p => (score_skill p.1 p.2 goal_text goal_name sdp_section).score
  | none => 0

/-- The `triggers` dictionary of a skill, with the missing-key default. -/
def trig_of (sd : SkillDef) : Triggers := sd.triggers.getD Triggers.empty

/-- The keyword list of a skill, with the missing-key default. -/
def skill_keywords (sd : SkillDef) : List String := (trig_of sd).keywords.getD []

/-- Signal 1 in isolation: one point per keyword found in the
case-folded goal text. -/
def keyword_score (sd : SkillDef) (goal_text : String) : Nat :=
  ((skill_keywords sd).filter (fun kw => pyIn (pyLower kw) (pyLower goal_text))).length

/-- Signal 2 in isolation: three points when some goal pattern matches
the case-folded goal name. -/
def goal_pattern_score (sd : SkillDef) (goal_name : String) : Nat :=
  match ((trig_of sd).goal_patterns.getD []).find? (fun p => p.2 (pyLower goal_name)) with
  | some _ => 3
  | none => 0

/-- Signal 3 in isolation: two points when the payload is (truthily)
present and some file-type token occurs in its serialized text. -/
def file_type_score (sd : SkillDef) (sdp_section : Option Json) : Nat :=
  match sdp_section with
  | some j =>
    if truthy j then
      match ((trig_of sd).file_types.getD []).find?
          (fun ft => pyIn (pyLower ft) (pyLower (dumps j))) with
      | some _ => 2
      | none => 0
    else 0
  | none => 0

/-- Signal 4 in isolation: two points for the wildcard section type on
a `build-` goal. -/
def wildcard_score (sd : SkillDef) (goal_name : String) : Nat :=
  if ((trig_of sd).section_types.getD []).contains "*" && pyStartsWith goal_name "build-"
  then 2 else 0

/-- The keyword-density count over the serialized text of a payload:
how many of the keywords of the skill occur in it (case-insensitively). -/
def density_count (sd : SkillDef) (j : Json) : Nat :=
  ((skill_keywords sd).filter (fun kw => pyIn (pyLower kw) (pyLower (dumps j)))).length

/-- Signal 5 in isolation: the density count itself, when the payload
is (truthily) present and the count exceeds 2. -/
def density_score (sd : SkillDef) (sdp_section : Option Json) : Nat :=
  match sdp_section with
  | some j =>
    if truthy j then
      if 2 < density_count sd j then density_count sd j else 0
    else 0
  | none => 0

/-!
## Concrete registry entries and goals from the specification examples
-/

/-- The goal-name regex `^build-.*dashboard` under `re.search` semantics:
anchored at the start, the literal `build-` (6 characters), then any
possibly-empty run of characters, then the literal `dashboard`;
equivalently, the subject starts with `build-` and contains `dashboard`
somewhere after that prefix. -/
def patBuildDashboard : GoalPattern :=
  ("^build-.*dashboard",
   fun s => pyStartsWith s "build-" && pyIn "dashboard" (pyDrop s 6))

/-- The `frontend-design` skill of the spec example: keywords
`ui`, `component`, `dashboard`; goal pattern `^build-.*dashboard`;
section types `["*"]`. -/
def frontendDesign : SkillDef :=
  { triggers := some
      { keywords := some ["ui", "component", "dashboard"],
        goal_patterns := some [patBuildDashboard],
        file_types := none,
        section_types := some ["*"] },
    path := none }

/-- The `api-design` skill of the spec example: keywords `endpoint`,
`rest`, `api`; no goal patterns, no file types, no section types. -/
def apiDesign : SkillDef :=
  { triggers := some
      { keywords := some ["endpoint", "rest", "api"],
        goal_patterns := none,
        file_types := none,
        section_types := none },
    path := none }

/-- Goal text of the `build-dashboard` example goal: name,
title `Build Dashboard`, empty body. -/
def dashboardGoalText : String := goal_text_of "build-dashboard" "Build Dashboard" ""

/-- Goal text of the `build-user-profile` example goal: name, empty
title, body `Simple profile page, no API calls.`. -/
def userProfileGoalText : String :=
  goal_text_of "build-user-profile" "" "Simple profile page, no API calls."

/-- A registry holding only the `api-design` example skill. -/
def apiOnlyRegistry : Registry := { skills := [("api-design", apiDesign)], composites := [] }

/-- A demonstration registry used to instantiate the general theorems:
the two example skills plus a composite whose trigger regex `crud`
(a literal, so `re.search` is plain substring search) bundles
`frontend-design`, `api-design` and the registry-unknown
`database-design`. -/
def demoRegistry : Registry :=
  { skills := [("frontend-design", frontendDesign), ("api-design", apiDesign)],
    composites := [("full-stack-feature",
      { triggers := some [("crud", fun s => pyIn "crud" s)],
        skills := ["frontend-design", "api-design", "database-design"],
        description := some "Frontend, API and database design together" })] }

/-- Goal text of the demonstration goal `build-inventory-crud`. -/
def demoGoalText : String :=
  goal_text_of "build-inventory-crud" "Inventory CRUD" "ui dashboard endpoint"

/-- A skill exercising the density signal: three keywords that all
occur in the demonstration payload below. -/
def densitySkill : SkillDef :=
  { triggers := some
      { keywords := some ["inventory", "sku", "warehouse"],
        goal_patterns := none,
        file_types := none,
        section_types := none },
    path := none }

/-- A demonstration SDP section payload mentioning all three
`densitySkill` keywords. -/
def demoPayload : Json :=
  Json.obj [("entity", Json.str "inventory"),
            ("fields", Json.arr [Json.str "sku", Json.str "warehouse"])]

/-- Two demonstration per-goal assignments feeding the aggregate
summary. -/
def demoAssignments : List Assignment :=
  [{ goal := "build-dashboard",
     assigned_skills := [{ name := "frontend-design",
                           path := some "skills/frontend-design/SKILL.md",
                           score := 4, reasons := ["keywords: ui"],
                           has_skill_file := true }] },
   { goal := "build-inventory-crud",
     assigned_skills := [{ name := "frontend-design",
                           path := some "skills/frontend-design/SKILL.md",
                           score := 4, reasons := ["keywords: ui"],
                           has_skill_file := true },
                         { name := "database-design", path := none, score := 1,
                           reasons := ["composite: full-stack-feature"],
                           has_skill_file := false }] }]

theorem score_skill_score_eq (skill_name : String) (sd : SkillDef)
    (goal_text goal_name : String) (sdp_section : Option Json) :
    (score_skill skill_name sd goal_text goal_name sdp_section).score =
      keyword_score sd goal_text + goal_pattern_score sd goal_name +
        file_type_score sd sdp_section + wildcard_score sd goal_name +
        density_score sd sdp_section := by
  cases sdp_section with
  | none => rfl
  | some j =>
    simp only [score_skill, keyword_score, goal_pattern_score, file_type_score,
      wildcard_score, density_score, density_count, skill_keywords, trig_of]
    by_cases h : truthy j
    · simp only [h, if_true]
      split <;> split <;> (try simp) <;> split <;> simp_all
    · simp [h]

theorem assignedNames_append (a b : List AssignedSkill) :
    assignedNames (a ++ b) = assignedNames a ++ assignedNames b :=
  List.map_append _ a b

theorem mkAssigned_name (sk : List (String × SkillDef)) (n : String) (score : Nat)
    (reasons : List String) : (mkAssigned sk n score reasons).name = n := rfl

theorem filterMap_ite_eq_filter_map {α β : Type} (q : α → Prop) [DecidablePred q]
    (g : α → β) (l : List α) :
    (l.filterMap fun a => if q a then some (g a) else none) =
      (l.filter (fun a => decide (q a))).map g := by
  induction l with
  | nil => rfl
  | cons a t ih => by_cases h : q a <;> simp [h, ih]

theorem find?_key_eq {β : Type} {l : List (String × β)} {n : String} {b : β}
    (hnd : (l.map Prod.fst).Nodup) (hm : (n, b) ∈ l) :
    l.find? (fun p => p.1 == n) = some (n, b) := by
  induction l with
  | nil => cases hm
  | cons a t ih =>
    simp only [List.map_cons, List.nodup_cons] at hnd
    rcases List.mem_cons.mp hm with h | h
    · rw [← h]
      exact List.find?_cons_of_pos _ (by simp)
    · have hne : ¬(a.1 == n) = true := by
        intro he
        exact hnd.1 ((beq_iff_eq.mp he) ▸ (List.mem_map_of_mem Prod.fst h))
      have hf : (a.1 == n) = false := by
        cases hb : (a.1 == n) with
        | false => rfl
        | true => exact absurd hb hne
      rw [List.find?_cons, hf]
      exact ih hnd.2 h

theorem foldl_add_member_append (sk : List (String × SkillDef)) (cn : String)
    (ms : List String) : ∀ (acc : List AssignedSkill),
    ∃ C, ms.foldl (add_member sk cn) acc = acc ++ C
      ∧ (∀ e ∈ C, ∃ cs ∈ ms, e = mkAssigned sk cs 1 ["composite: " ++ cn])
      ∧ (assignedNames C).Sublist ms := by
  induction ms with
  | nil => exact fun acc => ⟨[], by simp, by simp, by simp [assignedNames]⟩
  | cons m rest ih =>
    intro acc
    simp only [List.foldl_cons]
    by_cases h : (acc.map (fun s => s.name)).contains m
    · rw [add_member, if_pos h]
      obtain ⟨C, hC, hshape, hsub⟩ := ih acc
      refine ⟨C, hC, fun e he => ?_, hsub.cons m⟩
      obtain ⟨cs, hcs, he2⟩ := hshape e he
      exact ⟨cs, List.mem_cons_of_mem _ hcs, he2⟩
    · rw [add_member, if_neg h]
      obtain ⟨C, hC, hshape, hsub⟩ := ih (acc ++ [mkAssigned sk m 1 ["composite: " ++ cn]])
      rw [List.append_assoc, List.singleton_append] at hC
      refine ⟨mkAssigned sk m 1 ["composite: " ++ cn] :: C, hC, fun e he => ?_, ?_⟩
      · rcases List.mem_cons.mp he with he2 | he2
        · exact ⟨m, List.mem_cons_self _ _, he2⟩
        · obtain ⟨cs, hcs, he3⟩ := hshape e he2
          exact ⟨cs, List.mem_cons_of_mem _ hcs, he3⟩
      · exact hsub.cons₂ m

theorem names_subset_foldl_add_member (sk : List (String × SkillDef)) (cn : String)
    (ms : List String) (acc : List AssignedSkill) (n : String)
    (hn : n ∈ assignedNames acc) :
    n ∈ assignedNames (ms.foldl (add_member sk cn) acc) := by
  obtain ⟨C, hC, -, -⟩ := foldl_add_member_append sk cn ms acc
  rw [hC, assignedNames_append]
  exact List.mem_append_left _ hn

theorem mem_names_foldl_add_member (sk : List (String × SkillDef)) (cn : String)
    (ms : List String) : ∀ (acc : List AssignedSkill) (cs : String), cs ∈ ms →
    cs ∈ assignedNames (ms.foldl (add_member sk cn) acc) := by
  induction ms with
  | nil => exact fun _ _ h => absurd h (List.not_mem_nil _)
  | cons m rest ih =>
    intro acc cs hcs
    simp only [List.foldl_cons]
    rcases List.mem_cons.mp hcs with he | ht
    · subst he
      apply names_subset_foldl_add_member
      by_cases h : (acc.map (fun s => s.name)).contains cs
      · rw [add_member, if_pos h]
        exact List.elem_iff.mp h
      · rw [add_member, if_neg h]
        rw [assignedNames_append]
        exact List.mem_append_right _ (by simp [assignedNames, mkAssigned])
    · exact ih _ cs ht

theorem nodup_foldl_add_member (sk : List (String × SkillDef)) (cn : String)
    (ms : List String) : ∀ (acc : List AssignedSkill),
    (assignedNames acc).Nodup → (assignedNames (ms.foldl (add_member sk cn) acc)).Nodup := by
  induction ms with
  | nil => exact fun _ h => h
  | cons m rest ih =>
    intro acc h
    simp only [List.foldl_cons]
    apply ih
    by_cases hc : (acc.map (fun s => s.name)).contains m
    · rw [add_member, if_pos hc]; exact h
    · rw [add_member, if_neg hc, assignedNames_append]
      have hm : m ∉ assignedNames acc := fun hmem => hc (List.elem_iff.mpr hmem)
      have hnames : assignedNames [mkAssigned sk m 1 ["composite: " ++ cn]] = [m] := rfl
      rw [hnames, List.nodup_append]
      refine ⟨h, List.nodup_singleton m, ?_⟩
      intro x hx he
      simp only [List.mem_singleton] at he
      exact hm (he ▸ hx)

theorem foldl_add_composite_append (sk : List (String × SkillDef))
    (ms : List CompositeMatch) : ∀ (acc : List AssignedSkill),
    ∃ C, ms.foldl (add_composite sk) acc = acc ++ C
      ∧ (∀ e ∈ C, ∃ c ∈ ms, ∃ cs ∈ c.skills, e = mkAssigned sk cs 1 ["composite: " ++ c.name])
      ∧ (assignedNames C).Sublist (ms.flatMap fun c => c.skills) := by
  induction ms with
  | nil => exact fun acc => ⟨[], by simp, by simp, by simp [assignedNames]⟩
  | cons c rest ih =>
    intro acc
    simp only [List.foldl_cons]
    obtain ⟨C1, h1, hs1, hn1⟩ := foldl_add_member_append sk c.name c.skills acc
    obtain ⟨C2, h2, hs2, hn2⟩ := ih (add_composite sk acc c)
    have heq : add_composite sk acc c = acc ++ C1 := h1
    refine ⟨C1 ++ C2, h2.trans (by rw [heq, List.append_assoc]), fun e he => ?_, ?_⟩
    · rcases List.mem_append.mp he with h | h
      · obtain ⟨cs, hcs, he2⟩ := hs1 e h
        exact ⟨c, List.mem_cons_self _ _, cs, hcs, he2⟩
      · obtain ⟨c2, hc2, cs, hcs, he2⟩ := hs2 e h
        exact ⟨c2, List.mem_cons_of_mem _ hc2, cs, hcs, he2⟩
    · rw [assignedNames_append, List.flatMap_cons]
      exact List.Sublist.append hn1 hn2

theorem mem_names_foldl_add_composite (sk : List (String × SkillDef))
    (ms : List CompositeMatch) : ∀ (acc : List AssignedSkill) (c : CompositeMatch)
    (cs : String), c ∈ ms → cs ∈ c.skills →
    cs ∈ assignedNames (ms.foldl (add_composite sk) acc) := by
  induction ms with
  | nil => exact fun _ _ _ h _ => absurd h (List.not_mem_nil _)
  | cons c0 rest ih =>
    intro acc c cs hc hcs
    simp only [List.foldl_cons]
    rcases List.mem_cons.mp hc with he | ht
    · subst he
      have h1 : cs ∈ assignedNames (add_composite sk acc c) :=
        mem_names_foldl_add_member sk c.name c.skills acc cs hcs
      obtain ⟨C, hC, -, -⟩ := foldl_add_composite_append sk rest (add_composite sk acc c)
      rw [hC, assignedNames_append]
      exact List.mem_append_left _ h1
    · exact ih _ c cs ht hcs

theorem nodup_foldl_add_composite (sk : List (String × SkillDef))
    (ms : List CompositeMatch) : ∀ (acc : List AssignedSkill),
    (assignedNames acc).Nodup →
    (assignedNames (ms.foldl (add_composite sk) acc)).Nodup := by
  induction ms with
  | nil => exact fun _ h => h
  | cons c rest ih =>
    intro acc h
    simp only [List.foldl_cons]
    exact ih _ (nodup_foldl_add_member sk c.name c.skills acc h)

theorem mem_positive_scores {registry : Registry} {goal_text goal_name : String}
    {sdp_section : Option Json} {n : String} {r : ScoreResult} :
    (n, r) ∈ positive_scores registry goal_text goal_name sdp_section ↔
      ∃ sd, (n, sd) ∈ registry.skills ∧ r = score_skill n sd goal_text goal_name sdp_section
        ∧ 0 < r.score := by
  unfold positive_scores
  rw [List.mem_filterMap]
  constructor
  · rintro ⟨p, hp, hf⟩
    dsimp only at hf
    by_cases h : 0 < (score_skill p.1 p.2 goal_text goal_name sdp_section).score
    · rw [if_pos h] at hf
      obtain ⟨h1, h2⟩ := Prod.mk.injEq .. ▸ Option.some.inj hf
      subst h1
      exact ⟨p.2, hp, h2.symm, h2 ▸ h⟩
    · rw [if_neg h] at hf
      cases hf
  · rintro ⟨sd, hm, hr, hpos⟩
    refine ⟨(n, sd), hm, ?_⟩
    dsimp only
    rw [if_pos (hr ▸ hpos), ← hr]
  
theorem positive_names_sublist (registry : Registry) (goal_text goal_name : String)
    (sdp_section : Option Json) :
    ((positive_scores registry goal_text goal_name sdp_section).map Prod.fst).Sublist
      (registry.skills.map Prod.fst) := by
  unfold positive_scores
  induction registry.skills with
  | nil => simp
  | cons a t ih =>
    simp only [List.filterMap_cons, List.map_cons]
    by_cases h : 0 < (score_skill a.1 a.2 goal_text goal_name sdp_section).score
    · simp only [if_pos h]
      exact ih.cons₂ a.1
    · simp only [if_neg h]
      exact ih.cons a.1

theorem primary_skills_eq (registry : Registry) (goal_text goal_name : String)
    (sdp_section : Option Json) :
    primary_skills registry goal_text goal_name sdp_section =
      ((sorted_scores registry goal_text goal_name sdp_section).filter
          (fun p => decide (2 ≤ p.2.score))).map
        (fun p => mkAssigned registry.skills p.1 p.2.score p.2.reasons) := by
  unfold primary_skills
  exact filterMap_ite_eq_filter_map (fun p : String × ScoreResult => 2 ≤ p.2.score)
    (fun p : String × ScoreResult => mkAssigned registry.skills p.1 p.2.score p.2.reasons) _

theorem names_primary (registry : Registry) (goal_text goal_name : String)
    (sdp_section : Option Json) :
    assignedNames (primary_skills registry goal_text goal_name sdp_section) =
      ((sorted_scores registry goal_text goal_name sdp_section).filter
          (fun p => decide (2 ≤ p.2.score))).map Prod.fst := by
  rw [primary_skills_eq]
  unfold assignedNames
  rw [List.map_map]
  exact List.map_congr_left (fun p _ => rfl)

theorem nodup_names_primary (registry : Registry) (goal_text goal_name : String)
    (sdp_section : Option Json) (hnd : (registry.skills.map Prod.fst).Nodup) :
    (assignedNames (primary_skills registry goal_text goal_name sdp_section)).Nodup := by
  rw [names_primary]
  have hperm : (sorted_scores registry goal_text goal_name sdp_section).Perm
      (positive_scores registry goal_text goal_name sdp_section) :=
    List.perm_insertionSort _ _
  have h5 : ((positive_scores registry goal_text goal_name sdp_section).map Prod.fst).Nodup :=
    hnd.sublist (positive_names_sublist registry goal_text goal_name sdp_section)
  have h6 : ((sorted_scores registry goal_text goal_name sdp_section).map Prod.fst).Nodup :=
    ((hperm.map Prod.fst).nodup_iff).mpr h5
  exact h6.sublist ((List.filter_sublist _).map Prod.fst)

theorem mem_primary_skills {registry : Registry} {goal_text goal_name : String}
    {sdp_section : Option Json} {e : AssignedSkill} :
    e ∈ primary_skills registry goal_text goal_name sdp_section ↔
      ∃ n r, (n, r) ∈ positive_scores registry goal_text goal_name sdp_section ∧
        2 ≤ r.score ∧ e = mkAssigned registry.skills n r.score r.reasons := by
  rw [primary_skills_eq]
  simp only [List.mem_map, List.mem_filter]
  constructor
  · rintro ⟨p, ⟨hmem, hsc⟩, he⟩
    exact ⟨p.1, p.2, (List.perm_insertionSort _ _).mem_iff.mp hmem,
      of_decide_eq_true hsc, he.symm⟩
  · rintro ⟨n, r, hm, hs, he⟩
    exact ⟨(n, r), ⟨(List.perm_insertionSort _ _).mem_iff.mpr hm, decide_eq_true hs⟩, he.symm⟩

theorem direct_score_of_positive {registry : Registry} {goal_text goal_name : String}
    {sdp_section : Option Json} {n : String} {r : ScoreResult}
    (hnd : (registry.skills.map Prod.fst).Nodup)
    (hp : (n, r) ∈ positive_scores registry goal_text goal_name sdp_section) :
    direct_score registry goal_text goal_name sdp_section n = r.score := by
  obtain ⟨sd, hmem, hr, -⟩ := mem_positive_scores.mp hp
  unfold direct_score
  rw [find?_key_eq hnd hmem]
  dsimp only
  rw [← hr]

theorem mem_primary_of_direct {registry : Registry} {goal_text goal_name : String}
    {sdp_section : Option Json} {n : String}
    (h : 2 ≤ direct_score registry goal_text goal_name sdp_section n) :
    n ∈ assignedNames (primary_skills registry goal_text goal_name sdp_section) := by
  unfold direct_score at h
  cases hf : registry.skills.find? (fun p => p.1 == n) with
  | none => rw [hf] at h; dsimp only at h; omega
  | some p =>
    rw [hf] at h
    dsimp only at h
    have hmem : p ∈ registry.skills := List.mem_of_find?_eq_some hf
    have hkey : p.1 = n := by
      have h2 := List.find?_some hf
      exact beq_iff_eq.mp h2
    have hpos : (p.1, score_skill p.1 p.2 goal_text goal_name sdp_section) ∈
        positive_scores registry goal_text goal_name sdp_section :=
      mem_positive_scores.mpr ⟨p.2, hmem, rfl, by omega⟩
    have he : mkAssigned registry.skills p.1
        (score_skill p.1 p.2 goal_text goal_name sdp_section).score
        (score_skill p.1 p.2 goal_text goal_name sdp_section).reasons ∈
        primary_skills registry goal_text goal_name sdp_section :=
      mem_primary_skills.mpr ⟨p.1, _, hpos, h, rfl⟩
    have h3 := List.mem_map_of_mem (fun s => s.name) he
    simp only [mkAssigned] at h3
    rw [hkey] at h3
    exact h3

/-- C1: a skill name appears in an assignment exactly when its direct
score reaches the threshold 2 or some matched composite lists it as a
member; an appearing skill that did not qualify directly carries score
exactly 1 and a single reason naming the composite that introduced it
(so a direct score of 1 with no composite never appears). -/
theorem assignment_membership (registry : Registry) (goal_name goal_text : String)
    (sdp_section : Option Json) (hnd : (registry.skills.map Prod.fst).Nodup) (n : String) :
    (n ∈ assignedNames (assign_skills_to_goal registry goal_name goal_text sdp_section) ↔
      2 ≤ direct_score registry goal_text goal_name sdp_section n ∨
        ∃ c ∈ detect_composite_skills goal_name goal_text registry.composites, n ∈ c.skills)
    ∧ (direct_score registry goal_text goal_name sdp_section n < 2 →
        ∀ e ∈ assign_skills_to_goal registry goal_name goal_text sdp_section, e.name = n →
          e.score = 1 ∧
            ∃ c ∈ detect_composite_skills goal_name goal_text registry.composites,
              n ∈ c.skills ∧ e.reasons = ["composite: " ++ c.name]) := by
  obtain ⟨C, hC, hshape, -⟩ :=
    foldl_add_composite_append registry.skills
      (detect_composite_skills goal_name goal_text registry.composites)
      (primary_skills registry goal_text goal_name sdp_section)
  have hassign : assign_skills_to_goal registry goal_name goal_text sdp_section =
      primary_skills registry goal_text goal_name sdp_section ++ C := hC
  constructor
  · constructor
    · intro hmem
      rw [hassign, assignedNames_append] at hmem
      rcases List.mem_append.mp hmem with hm | hm
      · obtain ⟨e, he, hen⟩ := List.mem_map.mp hm
        obtain ⟨m, r, hp, hs, heq⟩ := mem_primary_skills.mp he
        left
        have hname : e.name = m := by rw [heq]; rfl
        rw [← hen, hname, direct_score_of_positive hnd hp]
        exact hs
      · obtain ⟨e, he, hen⟩ := List.mem_map.mp hm
        obtain ⟨c, hc, cs, hcs, heq⟩ := hshape e he
        right
        have hname : e.name = cs := by rw [heq]; rfl
        exact ⟨c, hc, by rw [← hen, hname]; exact hcs⟩
    · intro hor
      rcases hor with hd | ⟨c, hc, hcs⟩
      · rw [hassign, assignedNames_append]
        exact List.mem_append_left _ (mem_primary_of_direct hd)
      · exact mem_names_foldl_add_composite registry.skills
          (detect_composite_skills goal_name goal_text registry.composites)
          (primary_skills registry goal_text goal_name sdp_section) c n hc hcs
  · intro hlt e he hen
    rw [hassign] at he
    rcases List.mem_append.mp he with hm | hm
    · exfalso
      obtain ⟨m, r, hp, hs, heq⟩ := mem_primary_skills.mp hm
      have hname : e.name = m := by rw [heq]; rfl
      rw [hname] at hen
      subst hen
      rw [direct_score_of_positive hnd hp] at hlt
      omega
    · obtain ⟨c, hc, cs, hcs, heq⟩ := hshape e hm
      have hname : e.name = cs := by rw [heq]; rfl
      have hcsn : cs = n := by rw [← hname, hen]
      subst hcsn
      exact ⟨by rw [heq]; rfl, c, hc, hcs, by rw [heq]; rfl⟩

/-- C2: no skill name occurs twice in one assignment, whether reached
by direct scoring, by composite expansion, or by several composites
sharing a member. -/
theorem assignment_no_duplicates (registry : Registry) (goal_name goal_text : String)
    (sdp_section : Option Json) (hnd : (registry.skills.map Prod.fst).Nodup) :
    (assignedNames (assign_skills_to_goal registry goal_name goal_text sdp_section)).Nodup :=
  nodup_foldl_add_composite registry.skills
    (detect_composite_skills goal_name goal_text registry.composites)
    (primary_skills registry goal_text goal_name sdp_section)
    (nodup_names_primary registry goal_text goal_name sdp_section hnd)

/-- C3: the assignment splits as threshold-qualified entries followed by
composite-only additions; the qualified segment is in descending score
order, ties keeping the registry iteration order (stability of the
sort), and the composite-only names follow the composites in encounter
order with members in member-list order (a sublist of the concatenated
member lists). -/
theorem assignment_ordering (registry : Registry) (goal_name goal_text : String)
    (sdp_section : Option Json) :
    ∃ C, assign_skills_to_goal registry goal_name goal_text sdp_section =
        primary_skills registry goal_text goal_name sdp_section ++ C
      ∧ (∀ e ∈ primary_skills registry goal_text goal_name sdp_section, 2 ≤ e.score)
      ∧ (∀ e ∈ C, e.score = 1)
      ∧ (primary_skills registry goal_text goal_name sdp_section).Pairwise
          (fun a b => b.score ≤ a.score)
      ∧ (assignedNames C).Sublist
          ((detect_composite_skills goal_name goal_text registry.composites).flatMap
            (fun c => c.skills))
      ∧ (∀ sa sb : String × SkillDef, [sa, sb].Sublist registry.skills →
          (score_skill sa.1 sa.2 goal_text goal_name sdp_section).score =
            (score_skill sb.1 sb.2 goal_text goal_name sdp_section).score →
          2 ≤ (score_skill sa.1 sa.2 goal_text goal_name sdp_section).score →
          [mkAssigned registry.skills sa.1
              (score_skill sa.1 sa.2 goal_text goal_name sdp_section).score
              (score_skill sa.1 sa.2 goal_text goal_name sdp_section).reasons,
           mkAssigned registry.skills sb.1
              (score_skill sb.1 sb.2 goal_text goal_name sdp_section).score
              (score_skill sb.1 sb.2 goal_text goal_name sdp_section).reasons].Sublist
            (primary_skills registry goal_text goal_name sdp_section)) := by
  obtain ⟨C, hC, hshape, hsub⟩ := foldl_add_composite_append registry.skills
    (detect_composite_skills goal_name goal_text registry.composites)
    (primary_skills registry goal_text goal_name sdp_section)
  refine ⟨C, hC, ?_, ?_, ?_, hsub, ?_⟩
  · intro e he
    obtain ⟨m, r, hp, hs, heq⟩ := mem_primary_skills.mp he
    rw [heq]
    exact hs
  · intro e he
    obtain ⟨c, hc, cs, hcs, heq⟩ := hshape e he
    rw [heq]
    rfl
  · rw [primary_skills_eq, List.pairwise_map]
    have hsorted : (sorted_scores registry goal_text goal_name sdp_section).Pairwise scoreGE :=
      List.sorted_insertionSort scoreGE _
    exact (hsorted.sublist (List.filter_sublist _)).imp (fun h => h)
  · intro sa sb hsl heqs hge
    have h2b : 2 ≤ (score_skill sb.1 sb.2 goal_text goal_name sdp_section).score := heqs ▸ hge
    have hpos_a : 0 < (score_skill sa.1 sa.2 goal_text goal_name sdp_section).score := by omega
    have hpos_b : 0 < (score_skill sb.1 sb.2 goal_text goal_name sdp_section).score := by omega
    have hfm := hsl.filterMap (fun p : String × SkillDef =>
      let r := score_skill p.1 p.2 goal_text goal_name sdp_section
      if 0 < r.score then some (p.1, r) else none)
    have hl : ([sa, sb].filterMap (fun p : String × SkillDef =>
        let r := score_skill p.1 p.2 goal_text goal_name sdp_section
        if 0 < r.score then some (p.1, r) else none)) =
        [(sa.1, score_skill sa.1 sa.2 goal_text goal_name sdp_section),
         (sb.1, score_skill sb.1 sb.2 goal_text goal_name sdp_section)] := by
      simp only [List.filterMap_cons, List.filterMap_nil]
      rw [if_pos hpos_a, if_pos hpos_b]
    rw [hl] at hfm
    have hstep1 : [(sa.1, score_skill sa.1 sa.2 goal_text goal_name sdp_section),
        (sb.1, score_skill sb.1 sb.2 goal_text goal_name sdp_section)].Sublist
        (positive_scores registry goal_text goal_name sdp_section) := hfm
    have hpw : ([(sa.1, score_skill sa.1 sa.2 goal_text goal_name sdp_section),
        (sb.1, score_skill sb.1 sb.2 goal_text goal_name sdp_section)] :
        List (String × ScoreResult)).Pairwise scoreGE :=
      List.pairwise_pair.mpr (by simp only [scoreGE]; omega)
    have hstep2 := List.sublist_insertionSort hpw hstep1
    have hfm2 := hstep2.filterMap (fun p : String × ScoreResult =>
      if 2 ≤ p.2.score then some (mkAssigned registry.skills p.1 p.2.score p.2.reasons)
      else none)
    have hl2 : ([(sa.1, score_skill sa.1 sa.2 goal_text goal_name sdp_section),
        (sb.1, score_skill sb.1 sb.2 goal_text goal_name sdp_section)].filterMap
          (fun p : String × ScoreResult =>
            if 2 ≤ p.2.score then some (mkAssigned registry.skills p.1 p.2.score p.2.reasons)
            else none)) =
        [mkAssigned registry.skills sa.1
            (score_skill sa.1 sa.2 goal_text goal_name sdp_section).score
            (score_skill sa.1 sa.2 goal_text goal_name sdp_section).reasons,
         mkAssigned registry.skills sb.1
            (score_skill sb.1 sb.2 goal_text goal_name sdp_section).score
            (score_skill sb.1 sb.2 goal_text goal_name sdp_section).reasons] := by
      simp only [List.filterMap_cons, List.filterMap_nil]
      rw [if_pos hge, if_pos h2b]
    rw [hl2] at hfm2
    exact hfm2

/-- C8: resolution is a pure function of the registry, goal name, goal
text and payload: identical inputs give identical assignments,
including ordering, scores and reasons. -/
theorem resolver_deterministic (r1 r2 : Registry) (gn1 gn2 gt1 gt2 : String)
    (s1 s2 : Option Json) (hr : r1 = r2) (hn : gn1 = gn2) (ht : gt1 = gt2) (hs : s1 = s2) :
    assign_skills_to_goal r1 gn1 gt1 s1 = assign_skills_to_goal r2 gn2 gt2 s2 := by
  subst hr hn ht hs
  rfl

/-- C4 counterexample: on the `build-dashboard` example the scorer
returns 7, not 6 — the keyword `ui` also matches inside the word
`build`, so the keyword signal is +2, not +1. -/
theorem frontend_example_not_six :
    (score_skill "frontend-design" frontendDesign dashboardGoalText
      "build-dashboard" none).score = 7
    ∧ ¬((score_skill "frontend-design" frontendDesign dashboardGoalText
      "build-dashboard" none).score = 6) := by decide

/-- C4 (amended): on the `build-dashboard` example the total is 7:
keyword signal +2 (`ui` occurs inside `build`, `dashboard` matches),
goal-pattern +3, wildcard section-type +2; the reason list has exactly
those three signal categories. -/
theorem frontend_example_score :
    score_skill "frontend-design" frontendDesign dashboardGoalText "build-dashboard" none =
      { score := 7,
        reasons := ["keywords: ui, dashboard", "goal pattern: ^build-.*dashboard",
                    "applies to all build-* goals"] }
    ∧ keyword_score frontendDesign dashboardGoalText = 2
    ∧ goal_pattern_score frontendDesign "build-dashboard" = 3
    ∧ wildcard_score frontendDesign "build-dashboard" = 2 := by decide

/-- C5 counterexample: on the `build-user-profile` example the scorer
returns 1, not 0 — `api` occurs case-insensitively inside
`no API calls.`. -/
theorem api_example_not_zero :
    (score_skill "api-design" apiDesign userProfileGoalText
      "build-user-profile" none).score = 1
    ∧ ¬((score_skill "api-design" apiDesign userProfileGoalText
      "build-user-profile" none).score = 0) := by decide

/-- C5 (amended): the scorer returns score exactly 1 with the single
keyword reason `api`; the skill is still excluded from the assignment,
but by the ≥ 2 threshold rather than by a zero score. -/
theorem api_example_score :
    score_skill "api-design" apiDesign userProfileGoalText "build-user-profile" none =
      { score := 1, reasons := ["keywords: api"] }
    ∧ assign_skills_to_goal apiOnlyRegistry "build-user-profile" userProfileGoalText none
      = [] := by decide

/-- C10: a supplied but falsy payload (empty object, empty array, empty
string, zero, false, null) behaves exactly like an absent one — the
payload presence test is truthiness — so the file-type and density
signals contribute 0 for every skill. -/
theorem falsy_payload_like_absent :
    (∀ (skill_name : String) (sd : SkillDef) (goal_text goal_name : String) (j : Json),
      truthy j = false →
        score_skill skill_name sd goal_text goal_name (some j) =
          score_skill skill_name sd goal_text goal_name none)
    ∧ truthy (Json.obj []) = false ∧ truthy (Json.arr []) = false
    ∧ truthy (Json.str "") = false ∧ truthy (Json.num 0) = false
    ∧ truthy (Json.bool false) = false ∧ truthy Json.null = false
    ∧ (∀ (sd : SkillDef) (j : Json), truthy j = false → file_type_score sd (some j) = 0)
    ∧ (∀ (sd : SkillDef) (j : Json), truthy j = false → density_score sd (some j) = 0) := by
  refine ⟨?_, by decide, by decide, by decide, by decide, by decide, by decide, ?_, ?_⟩
  · intro skill_name sd goal_text goal_name j h
    simp [score_skill, h]
  · intro sd j h
    simp [file_type_score, h]
  · intro sd j h
    simp [density_score, h]

/-- C7: a missing trigger block, or any missing trigger category, is
treated as empty (the whole trigger block missing makes every signal
contribute 0 and the reason list empty); an absent payload zeroes the
file-type and density signals; a composite without a trigger list never
matches.  All of this is by total functions — no error path exists. -/
theorem missing_inputs_graceful :
    (∀ (skill_name goal_text goal_name : String) (sdp_section : Option Json)
        (path : Option String),
      score_skill skill_name ⟨none, path⟩ goal_text goal_name sdp_section = ⟨0, []⟩)
    ∧ (∀ (skill_name goal_text goal_name : String) (sdp_section : Option Json)
        (path : Option String) (gp : Option (List GoalPattern)) (ft st : Option (List String)),
        score_skill skill_name ⟨some ⟨none, gp, ft, st⟩, path⟩ goal_text goal_name sdp_section =
          score_skill skill_name ⟨some ⟨some [], gp, ft, st⟩, path⟩ goal_text goal_name
            sdp_section)
    ∧ (∀ (skill_name goal_text goal_name : String) (sdp_section : Option Json)
        (path : Option String) (kw : Option (List String)) (ft st : Option (List String)),
        score_skill skill_name ⟨some ⟨kw, none, ft, st⟩, path⟩ goal_text goal_name sdp_section =
          score_skill skill_name ⟨some ⟨kw, some [], ft, st⟩, path⟩ goal_text goal_name
            sdp_section)
    ∧ (∀ (skill_name goal_text goal_name : String) (sdp_section : Option Json)
        (path : Option String) (kw : Option (List String)) (gp : Option (List GoalPattern))
        (st : Option (List String)),
        score_skill skill_name ⟨some ⟨kw, gp, none, st⟩, path⟩ goal_text goal_name sdp_section =
          score_skill skill_name ⟨some ⟨kw, gp, some [], st⟩, path⟩ goal_text goal_name
            sdp_section)
    ∧ (∀ (skill_name goal_text goal_name : String) (sdp_section : Option Json)
        (path : Option String) (kw : Option (List String)) (gp : Option (List GoalPattern))
        (ft : Option (List String)),
        score_skill skill_name ⟨some ⟨kw, gp, ft, none⟩, path⟩ goal_text goal_name sdp_section =
          score_skill skill_name ⟨some ⟨kw, gp, ft, some []⟩, path⟩ goal_text goal_name
            sdp_section)
    ∧ (∀ (skill_name : String) (sd : SkillDef) (goal_text goal_name : String),
        (score_skill skill_name sd goal_text goal_name none).score =
          keyword_score sd goal_text + goal_pattern_score sd goal_name +
            wildcard_score sd goal_name)
    ∧ (∀ (goal_name goal_text comp_name : String) (sks : List String)
        (descr : Option String),
        detect_composite_skills goal_name goal_text [(comp_name, ⟨none, sks, descr⟩)] = []) := by
  refine ⟨?_, fun _ _ _ _ _ _ _ _ => rfl, fun _ _ _ _ _ _ _ _ => rfl,
    fun _ _ _ _ _ _ _ _ => rfl, fun _ _ _ _ _ _ _ _ => rfl, ?_, fun _ _ _ _ _ => rfl⟩
  · intro skill_name goal_text goal_name sdp_section path
    cases sdp_section with
    | none => rfl
    | some j => by_cases h : truthy j <;> simp [score_skill, Triggers.empty, h]
  · intro skill_name sd goal_text goal_name
    rfl

/-- C6: the density signal contributes exactly the keyword-hit count n
over the serialized payload when the payload is (truthily) present and
n > 2 — the count itself, not a flat bonus, with one trailing reason
reporting the count — and contributes 0 when n ≤ 2 or the payload is
absent.  With a duplicate-free keyword list, n is the number of
distinct keywords occurring in the serialized text. -/
theorem density_signal (skill_name : String) (sd : SkillDef) (goal_text goal_name : String)
    (sdp_section : Option Json) (hkw : (skill_keywords sd).Nodup) :
    ((score_skill skill_name sd goal_text goal_name sdp_section).score =
      keyword_score sd goal_text + goal_pattern_score sd goal_name +
        file_type_score sd sdp_section + wildcard_score sd goal_name +
        density_score sd sdp_section)
    ∧ (∀ j, sdp_section = some j → truthy j = true → 2 < density_count sd j →
        density_score sd sdp_section = density_count sd j ∧
        (score_skill skill_name sd goal_text goal_name sdp_section).reasons.getLast? =
          some (toString (density_count sd j) ++ " keyword hits in SDP section"))
    ∧ (∀ j, sdp_section = some j → truthy j = true → density_count sd j ≤ 2 →
        density_score sd sdp_section = 0)
    ∧ (sdp_section = none → density_score sd sdp_section = 0)
    ∧ (∀ j, ((skill_keywords sd).filter
        (fun kw => pyIn (pyLower kw) (pyLower (dumps j)))).dedup.length =
        density_count sd j) := by
  refine ⟨score_skill_score_eq skill_name sd goal_text goal_name sdp_section, ?_, ?_, ?_, ?_⟩
  · rintro j rfl ht hd
    constructor
    · simp only [density_score]
      rw [if_pos ht, if_pos hd]
    · have hd2 : 2 < (((sd.triggers.getD Triggers.empty).keywords.getD []).filter
          (fun kw => pyIn (pyLower kw) (pyLower (dumps j)))).length := hd
      simp only [score_skill, ht, if_true, hd2, if_pos]
      simp [List.getLast?_append, density_count, skill_keywords, trig_of]
  · rintro j rfl ht hd
    simp only [density_score]
    rw [if_pos ht, if_neg (by omega)]
  · rintro rfl
    rfl
  · intro j
    exact congrArg List.length (List.Nodup.dedup (hkw.filter _))

theorem count_of_cons (k : String) (v : Nat) (t : List (String × Nat)) (n : String) :
    count_of ((k, v) :: t) n = if (k == n) = true then v else count_of t n := by
  unfold count_of
  rw [List.find?_cons]
  cases hb : (k == n) <;> simp [hb]

theorem count_of_map_bump_found (n : String) : ∀ (acc : List (String × Nat)),
    acc.any (fun p => p.1 == n) = true →
    count_of (acc.map (fun p => if p.1 == n then (p.1, p.2 + 1) else p)) n =
      count_of acc n + 1 := by
  intro acc
  induction acc with
  | nil => intro h; simp at h
  | cons a t ih =>
    intro h
    obtain ⟨k, v⟩ := a
    simp only [List.map_cons]
    by_cases hb : (k == n) = true
    · simp [count_of_cons, hb]
    · have hb2 : (k == n) = false := by simpa using hb
      have h2 : t.any (fun p => p.1 == n) = true := by
        simpa [List.any_cons, hb2] using h
      rw [if_neg hb, count_of_cons, count_of_cons, if_neg hb, if_neg hb]
      exact ih h2

theorem count_of_map_bump_ne (n m : String) (hnm : n ≠ m) : ∀ (acc : List (String × Nat)),
    count_of (acc.map (fun p => if p.1 == m then (p.1, p.2 + 1) else p)) n =
      count_of acc n := by
  intro acc
  induction acc with
  | nil => rfl
  | cons a t ih =>
    obtain ⟨k, v⟩ := a
    simp only [List.map_cons]
    by_cases hb : (k == m) = true
    · have hkm : k = m := beq_iff_eq.mp hb
      have hkn : ¬((k == n) = true) :=
        by simp [beq_eq_false_iff_ne.mpr (show k ≠ n by rw [hkm]; exact Ne.symm hnm)]
      rw [if_pos hb, count_of_cons, count_of_cons, if_neg hkn, if_neg hkn]
      exact ih
    · have hb2 : (k == m) = false := by simpa using hb
      rw [if_neg hb, count_of_cons, count_of_cons, ih]

theorem count_of_append_new (acc : List (String × Nat)) (n : String)
    (h : acc.any (fun p => p.1 == n) = false) :
    count_of (acc ++ [(n, 1)]) n = count_of acc n + 1 := by
  have hnone : acc.find? (fun p => p.1 == n) = none := by
    rw [List.find?_eq_none]
    intro x hx
    have h2 : ¬ (x.1 == n) = true := by
      intro hb
      have h3 : acc.any (fun p => p.1 == n) = true :=
        List.any_eq_true.mpr ⟨x, hx, hb⟩
      rw [h] at h3
      cases h3
    simpa using h2
  unfold count_of
  rw [List.find?_append, hnone]
  simp

theorem count_of_append_other (acc : List (String × Nat)) (n m : String) (hnm : n ≠ m) :
    count_of (acc ++ [(m, 1)]) n = count_of acc n := by
  unfold count_of
  rw [List.find?_append]
  have hmn : (m == n) = false := beq_eq_false_iff_ne.mpr (Ne.symm hnm)
  cases hf : acc.find? (fun p => p.1 == n) <;> simp [hmn]

theorem count_of_bump (acc : List (String × Nat)) (n m : String) :
    count_of (bump_count acc m) n = count_of acc n + (if n = m then 1 else 0) := by
  unfold bump_count
  by_cases hnm : n = m
  · subst hnm
    rw [if_pos rfl]
    by_cases h : acc.any (fun p => p.1 == n) = true
    · rw [if_pos h]
      exact count_of_map_bump_found n acc h
    · rw [if_neg h]
      have hf : acc.any (fun p => p.1 == n) = false := by
        cases hb : acc.any (fun p => p.1 == n) with
        | false => rfl
        | true => exact absurd hb h
      exact count_of_append_new acc n hf
  · rw [if_neg hnm]
    by_cases h : acc.any (fun p => p.1 == m) = true
    · rw [if_pos h, count_of_map_bump_ne n m hnm acc]
      simp
    · rw [if_neg h, count_of_append_other acc n m hnm]
      simp

theorem count_of_foldl_bump (n : String) : ∀ (ns : List String) (acc : List (String × Nat)),
    ns.Nodup →
    count_of (ns.foldl bump_count acc) n =
      count_of acc n + (if n ∈ ns then 1 else 0) := by
  intro ns
  induction ns with
  | nil => intro acc h; simp
  | cons m rest ih =>
    intro acc hnd
    rw [List.foldl_cons, ih (bump_count acc m) (List.nodup_cons.mp hnd).2, count_of_bump]
    by_cases hnm : n = m
    · subst hnm
      have hnr : n ∉ rest := (List.nodup_cons.mp hnd).1
      simp [hnr]
    · simp only [if_neg hnm, List.mem_cons]
      by_cases hr : n ∈ rest
      · simp [hr, hnm]
      · simp [hr, hnm]

theorem count_of_skill_counts_fold (n : String) : ∀ (as : List Assignment)
    (acc : List (String × Nat)),
    (∀ a ∈ as, (assignedNames a.assigned_skills).Nodup) →
    count_of (as.foldl (fun acc2 a => a.assigned_skills.foldl
        (fun acc3 s => bump_count acc3 s.name) acc2) acc) n =
      count_of acc n +
        (as.filter (fun a => (assignedNames a.assigned_skills).contains n)).length := by
  intro as
  induction as with
  | nil => intro acc h; simp
  | cons a rest ih =>
    intro acc hnd
    rw [List.foldl_cons, ih _ (fun x hx => hnd x (List.mem_cons_of_mem _ hx))]
    have hinner : a.assigned_skills.foldl (fun acc3 s => bump_count acc3 s.name) acc =
        (assignedNames a.assigned_skills).foldl bump_count acc :=
      (List.foldl_map (fun s : AssignedSkill => s.name) bump_count
        a.assigned_skills acc).symm
    rw [hinner, count_of_foldl_bump n _ acc (hnd a (List.mem_cons_self _ _)),
      List.filter_cons]
    by_cases hm : n ∈ assignedNames a.assigned_skills
    · have hc : (assignedNames a.assigned_skills).contains n = true := List.elem_iff.mpr hm
      simp only [hc, if_pos hm, if_true]
      simp [List.length_cons]
      omega
    · have hc : (assignedNames a.assigned_skills).contains n = false := by
        cases hb : (assignedNames a.assigned_skills).contains n with
        | false => rfl
        | true => exact absurd (List.elem_iff.mp hb) hm
      simp only [hc, if_neg hm]
      simp

/-- C9: for duplicate-free per-goal assignments over distinct goals,
the summary counts for each skill name exactly the goals whose
assignment contains it (listing those goals without repetition), the
has-reference flag is true exactly when some occurrence carries a
truthy resolved path, and the summary rows are in descending
usage-count order. -/
theorem summary_report (assignments : List Assignment)
    (hnd : ∀ a ∈ assignments, (assignedNames a.assigned_skills).Nodup)
    (hg : (assignments.map (fun a => a.goal)).Nodup) :
    (∀ n, count_of (skill_counts assignments) n =
        ((assignments.filter
          (fun a => (assignedNames a.assigned_skills).contains n)).map
            (fun a => a.goal)).length)
    ∧ (∀ n, ((assignments.filter
          (fun a => (assignedNames a.assigned_skills).contains n)).map
            (fun a => a.goal)).Nodup)
    ∧ (∀ n, has_skill_file_flag assignments n = true ↔
        ∃ a ∈ assignments, ∃ s ∈ a.assigned_skills, s.name = n ∧ path_truthy s.path = true)
    ∧ (summary_rows assignments).Pairwise countGE := by
  refine ⟨?_, ?_, ?_, List.sorted_insertionSort countGE _⟩
  · intro n
    rw [List.length_map]
    have h := count_of_skill_counts_fold n assignments [] hnd
    unfold skill_counts
    rw [h]
    simp [count_of]
  · intro n
    exact hg.sublist ((List.filter_sublist _).map _)
  · intro n
    unfold has_skill_file_flag
    rw [List.any_eq_true]
    constructor
    · rintro ⟨a, ha, h2⟩
      rw [List.any_eq_true] at h2
      obtain ⟨s, hs, h3⟩ := h2
      rw [Bool.and_eq_true] at h3
      exact ⟨a, ha, s, hs, beq_iff_eq.mp h3.1, h3.2⟩
    · rintro ⟨a, ha, s, hs, h1, h2⟩
      refine ⟨a, ha, ?_⟩
      rw [List.any_eq_true]
      exact ⟨s, hs, by rw [Bool.and_eq_true]; exact ⟨beq_iff_eq.mpr h1, h2⟩⟩

/-- Witness for C1 at the demonstration registry: the key-uniqueness
hypothesis holds and the registry-unknown composite member
`database-design` (direct score 0) appears in the assignment. -/
theorem assignment_membership_witness :
    (demoRegistry.skills.map Prod.fst).Nodup
    ∧ "database-design" ∈ assignedNames
        (assign_skills_to_goal demoRegistry "build-inventory-crud" demoGoalText none) :=
  ⟨by decide,
   (assignment_membership demoRegistry "build-inventory-crud" demoGoalText none
      (by decide) "database-design").1.mpr (Or.inr (by decide))⟩

/-- Witness for C2 at the demonstration registry. -/
theorem assignment_no_duplicates_witness :
    (demoRegistry.skills.map Prod.fst).Nodup
    ∧ (assignedNames (assign_skills_to_goal demoRegistry "build-inventory-crud"
        demoGoalText none)).Nodup :=
  ⟨by decide,
   assignment_no_duplicates demoRegistry "build-inventory-crud" demoGoalText none (by decide)⟩

/-- Witness for C3 at the demonstration registry: the assignment indeed
extends the threshold-qualified segment. -/
theorem assignment_ordering_witness :
    ∃ C, assign_skills_to_goal demoRegistry "build-inventory-crud" demoGoalText none =
      primary_skills demoRegistry demoGoalText "build-inventory-crud" none ++ C := by
  obtain ⟨C, hC, -, -, -, -, -⟩ :=
    assignment_ordering demoRegistry "build-inventory-crud" demoGoalText none
  exact ⟨C, hC⟩

/-- Witness for C6 on a concrete payload with three keyword hits. -/
theorem density_signal_witness :
    (skill_keywords densitySkill).Nodup
    ∧ truthy demoPayload = true
    ∧ 2 < density_count densitySkill demoPayload
    ∧ (score_skill "inventory-analysis" densitySkill "no keywords here" "inventory"
        (some demoPayload)).reasons.getLast? =
      some (toString (density_count densitySkill demoPayload) ++ " keyword hits in SDP section") :=
  ⟨by decide, by decide, by decide,
   ((density_signal "inventory-analysis" densitySkill "no keywords here" "inventory"
      (some demoPayload) (by decide)).2.1 demoPayload rfl (by decide) (by decide)).2⟩

/-- Witness for C7: a skill with no trigger block scores 0 with no
reasons. -/
theorem missing_inputs_graceful_witness :
    score_skill "mystery" ⟨none, none⟩ "some goal text" "build-x" none = ⟨0, []⟩ :=
  missing_inputs_graceful.1 "mystery" "some goal text" "build-x" none none

/-- Witness for C8: a concrete pair of identical runs. -/
theorem resolver_deterministic_witness :
    assign_skills_to_goal demoRegistry "build-inventory-crud" demoGoalText none =
      assign_skills_to_goal demoRegistry "build-inventory-crud" demoGoalText none :=
  resolver_deterministic demoRegistry demoRegistry "build-inventory-crud"
    "build-inventory-crud" demoGoalText demoGoalText none none rfl rfl rfl rfl

/-- Witness for C9 on the demonstration assignments. -/
theorem summary_report_witness :
    (∀ a ∈ demoAssignments, (assignedNames a.assigned_skills).Nodup)
    ∧ (demoAssignments.map (fun a => a.goal)).Nodup
    ∧ count_of (skill_counts demoAssignments) "frontend-design" =
        ((demoAssignments.filter
          (fun a => (assignedNames a.assigned_skills).contains "frontend-design")).map
            (fun a => a.goal)).length :=
  ⟨by decide, by decide,
   (summary_report demoAssignments (by decide) (by decide)).1 "frontend-design"⟩

/-- Witness for C10: the empty object payload scores exactly like an
absent payload on the example skill and goal. -/
theorem falsy_payload_witness :
    truthy (Json.obj []) = false
    ∧ score_skill "frontend-design" frontendDesign dashboardGoalText "build-dashboard"
        (some (Json.obj [])) =
      score_skill "frontend-design" frontendDesign dashboardGoalText "build-dashboard" none :=
  ⟨by decide,
   falsy_payload_like_absent.1 "frontend-design" frontendDesign dashboardGoalText
     "build-dashboard" (Json.obj []) (by decide)⟩
